import Mathlib

set_option maxHeartbeats 1000000

/-!
Shallow embedding of the relationship-graph visualizer (`RelationshipGraphView`
in `app/ui/assets/app.js`).  JS numbers are modelled as rationals; the JS
library functions `Math.sqrt`, `Math.cos(2π·)`, `Math.sin(2π·)` and the
`Math.random` stream are modelled as explicit function parameters (`sq`, `co`,
`si`, `rand`) because the engine treats them as black boxes.  The JS `Map`
used for `nodeIndex` is modelled by `nodeIndexOf` (insertion order with later
entries overwriting earlier ones).  Pointer/tooltip/canvas side effects are
dropped; the state the handlers mutate is kept.
-/

/-- Raw node of the input `GraphDocument`; absent JS fields are the empty
string / empty list, matching the `String(x || "")` coercions in the code. -/
structure RawNode where
  id : String
  title : String
  authors : String
  year : String
  tags : List String
  summary : String
deriving Repr, DecidableEq, Inhabited

/-- Raw edge of the input `GraphDocument`; `weight` is `none` when the JS
field is absent (the code then falls back to 3). -/
structure RawEdge where
  source : String
  target : String
  type : String
  weight : Option ℚ
  reason : String
deriving Repr, DecidableEq, Inhabited

/-- Raw cluster: a list of node ids (`c.node_ids`). -/
structure RawCluster where
  node_ids : List String
deriving Repr, DecidableEq, Inhabited

/-- The external graph document passed to `setGraph`. -/
structure GraphDocument where
  nodes : List RawNode
  edges : List RawEdge
  clusters : List RawCluster
deriving Repr, DecidableEq, Inhabited

/-- Simulation node, as built by `setGraph` and mutated by `_tick`. -/
structure SimNode where
  id : String
  title : String
  authors : String
  year : String
  tags : List String
  summary : String
  color : String
  x : ℚ
  y : ℚ
  vx : ℚ
  vy : ℚ
  fx : ℚ
  fy : ℚ
  r : ℚ
  degree : ℕ
  fixed : Bool
deriving Repr, DecidableEq, Inhabited

/-- Simulation edge: endpoint indices into the node list plus metadata. -/
structure SimEdge where
  a : ℕ
  b : ℕ
  type : String
  weight : ℤ
  reason : String
deriving Repr, DecidableEq, Inhabited

/-- Mutable state of a `RelationshipGraphView` instance (the part the claims
are about; canvas/tooltip handles and the animation-loop bookkeeping carry no
graph state). -/
structure GraphState where
  nodes : List SimNode
  edges : List SimEdge
  width : ℚ
  height : ℚ
  hoverIndex : Int
  dragIndex : Int
deriving Repr, DecidableEq, Inhabited

/-- `Math.round` of JS: round half toward positive infinity. -/
def jsRound (q : ℚ) : ℤ := ⌊q + 1/2⌋

/-- JS `String.prototype.trim`: strip whitespace from both ends (stated on
the character list so that it evaluates structurally). -/
def strTrim (s : String) : String :=
  ⟨((s.data.dropWhile Char.isWhitespace).reverse.dropWhile Char.isWhitespace).reverse⟩

/-- The fixed color palette of `setGraph`. -/
def palette : List String :=
  [ "#059669", "#10b981", "#34d399", "#064e3b", "#065f46", "#047857", "#14b8a6", "#0d9488"]

/-- `colorForCluster`: `palette[idx % palette.length]` (the index is a
nonnegative array/hash index, so `Math.abs(Number(idx) || 0)` is `idx`). -/
def colorForCluster (idx : ℕ) : String := palette.getD (idx % palette.length) ("")

/-- The 32-bit rolling hash `hash` of `setGraph`:
`h = (h * 31 + s.charCodeAt(i)) >>> 0`. -/
def hashStr (s : String) : ℕ :=
  s.data.foldl (fun h c => (h * 31 + c.toNat) % 4294967296) 0

/-- First cluster (by cluster order) whose `node_ids` contain `id`, starting
the index count at `i`; models the `clusterByNode` map, which only records an
id the first time it is seen. -/
def clusterOfFrom (id : String) : ℕ → List RawCluster → Option ℕ
  | _, [] => none
  | i, c :: rest => if id ∈ c.node_ids then some i else clusterOfFrom id (i + 1) rest

/-- Index of the first cluster containing `id`, if any. -/
def clusterOf (clusters : List RawCluster) (id : String) : Option ℕ :=
  clusterOfFrom id 0 clusters

/-- One entry of the `this.nodes` build in `setGraph`: trims the id, drops the
node when the id is empty, resolves the color from cluster membership or the
tag/title hash, and seeds the remaining fields. -/
def buildNode (clusters : List RawCluster) (n : RawNode) : Option SimNode :=
  let id := strTrim n.id
  let title := strTrim (if n.title = "" then id else n.title)
  if id = "" then none
  else
    let tags := n.tags
    let clusterIdx := clusterOf clusters id
    let color :=
      match clusterIdx with
      | some idx => colorForCluster idx
      | none =>
          colorForCluster
            (hashStr (let s := String.intercalate ("|") tags; if s = "" then title else s))
    some
      { id := id, title := title, authors := strTrim n.authors, year := strTrim n.year,
        tags := tags, summary := strTrim n.summary, color := color,
        x := 0, y := 0, vx := 0, vy := 0, fx := 0, fy := 0,
        r := 12, degree := 0, fixed := false }

/-- `nodeIndex` lookup starting at position `i`: the JS `Map` is built by
inserting `(n.id, idx)` pairs in order, so a later index with the same id
overwrites an earlier one. -/
def nodeIndexFrom (id : String) : ℕ → List SimNode → Option ℕ
  | _, [] => none
  | i, n :: rest =>
    match nodeIndexFrom id (i + 1) rest with
    | some k => some k
    | none => if n.id = id then some i else none

/-- `this.nodeIndex.get id`: the index of the last node carrying `id`. -/
def nodeIndexOf (nodes : List SimNode) (id : String) : Option ℕ :=
  nodeIndexFrom id 0 nodes

/-- One entry of the `this.edges` build in `setGraph`: resolves the endpoint
ids through `nodeIndex`, drops the edge when either endpoint is unknown or
the endpoints coincide, and normalizes the weight into `[1, 5]`. -/
def buildEdge (nodes : List SimNode) (e : RawEdge) : Option SimEdge :=
  match nodeIndexOf nodes e.source, nodeIndexOf nodes e.target with
  | some a, some b =>
    if a = b then none
    else
      let w0 : ℚ := match e.weight with | none => 3 | some q => q
      let w : ℚ := if w0 = 0 then 3 else w0
      some
        { a := a, b := b,
          type := if e.type = "" then ("related") else e.type,
          weight := max 1 (min 5 (jsRound w)),
          reason := strTrim e.reason }
  | _, _ => none

/-- Nodes surviving the build phase of `setGraph` (before degrees/positions). -/
def builtNodes (g : GraphDocument) : List SimNode :=
  g.nodes.filterMap (buildNode g.clusters)

/-- Edges surviving the build phase of `setGraph`. -/
def builtEdges (g : GraphDocument) : List SimEdge :=
  g.edges.filterMap (buildEdge (builtNodes g))

/-- Functional store for per-index counters (the degree recomputation). -/
def bump (d : ℕ → ℕ) (i : ℕ) : ℕ → ℕ :=
  fun k => if k = i then d k + 1 else d k

/-- The degree recomputation of `setGraph`: reset all degrees to 0, then walk
the edge list incrementing both endpoints. -/
def degreeMap (edges : List SimEdge) : ℕ → ℕ :=
  edges.foldl (fun d e => bump (bump d e.a) e.b) (fun _ => 0)

/-- Index-aware map over the node list starting at index `i` (models the JS
`forEach((n, idx) => ...)` loops that rewrite node fields in place). -/
def mapWithIdxFrom (f : ℕ → SimNode → SimNode) : ℕ → List SimNode → List SimNode
  | _, [] => []
  | i, n :: rest => f i n :: mapWithIdxFrom f (i + 1) rest

/-- Index-aware map over the node list. -/
def mapWithIdx (f : ℕ → SimNode → SimNode) (l : List SimNode) : List SimNode :=
  mapWithIdxFrom f 0 l

/-- Degree and radius assignment of `setGraph`:
`n.r = Math.max(10, Math.min(24, 10 + n.degree * 1.2))`. -/
def degreedNodes (g : GraphDocument) : List SimNode :=
  mapWithIdx
    (fun i n =>
      { n with degree := degreeMap (builtEdges g) i,
               r := max 10 (min 24 (10 + (degreeMap (builtEdges g) i : ℚ) * (12/10))) })
    (builtNodes g)

/-- Initial position seeding of `setGraph`: a circle of radius
`max(120, 0.32·min(w,h))` around the viewport center with `±6px` jitter in
each axis.  `co`/`si` stand for `Math.cos(2π·)`/`Math.sin(2π·)` applied to the
angle fraction `i / nCount`, and `rand` is the `Math.random()` stream
(consumed at indices `2i` and `2i+1`). -/
def seedPositions (co si : ℚ → ℚ) (rand : ℕ → ℚ) (width height : ℚ)
    (nodes : List SimNode) : List SimNode :=
  let w := if width = 0 then 800 else width
  let h := if height = 0 then 600 else height
  let cx := w / 2
  let cy := h / 2
  let radius := max 120 (min w h * (32/100))
  let nCount : ℕ := max 1 nodes.length
  mapWithIdx
    (fun i n =>
      { n with
        x := cx + co ((i : ℚ) / (nCount : ℚ)) * radius + (rand (2 * i) - 1/2) * 12,
        y := cy + si ((i : ℚ) / (nCount : ℚ)) * radius + (rand (2 * i + 1) - 1/2) * 12,
        vx := 0, vy := 0, fixed := false })
    nodes

/-- The synchronous part of `setGraph` before the warm-up: build nodes and
edges, recompute degrees and radii, seed positions, reset hover/drag. -/
def setGraphBuild (co si : ℚ → ℚ) (rand : ℕ → ℚ) (width height : ℚ)
    (g : GraphDocument) : GraphState :=
  { nodes := seedPositions co si rand width height (degreedNodes g),
    edges := builtEdges g,
    width := width, height := height,
    hoverIndex := -1, dragIndex := -1 }

/-- Functional store for the per-node force accumulators `fx`/`fy`. -/
def addForce (F : ℕ → ℚ × ℚ) (i : ℕ) (d : ℚ × ℚ) : ℕ → ℚ × ℚ :=
  fun k => if k = i then ((F k).1 + d.1, (F k).2 + d.2) else F k

/-- `[s, s+1, ..., s+k-1]`, the index range of a JS `for` loop. -/
def rangeFrom (s : ℕ) : ℕ → List ℕ
  | 0 => []
  | k + 1 => s :: rangeFrom (s + 1) k

/-- The ordered index pairs `(i, j)` with `i < j < n` visited by the nested
repulsion loops, in loop order. -/
def pairList (n : ℕ) : List (ℕ × ℕ) :=
  (rangeFrom 0 n).foldr
    (fun i acc => (rangeFrom (i + 1) (n - (i + 1))).map (fun j => (i, j)) ++ acc) []

/-- The repulsion body for one pair `(i, j)`:
`dist2 = dx² + dy² + 0.01`, `inv = 1 / sqrt(dist2)`, `f = 5600 / dist2`,
subtracting the scaled direction from node `i` and adding it to node `j`. -/
def repelUpdate (sq : ℚ → ℚ) (nodes : List SimNode) (F : ℕ → ℚ × ℚ)
    (p : ℕ × ℕ) : ℕ → ℚ × ℚ :=
  let a := nodes.getD p.1 default
  let b := nodes.getD p.2 default
  let dx := b.x - a.x
  let dy := b.y - a.y
  let dist2 := dx * dx + dy * dy + 1/100
  let inv := 1 / sq dist2
  let f := 5600 / dist2
  addForce (addForce F p.1 (-(dx * inv * f), -(dy * inv * f))) p.2
    (dx * inv * f, dy * inv * f)

/-- The link-attraction body for one edge:
`dist = sqrt(dx² + dy²) + 0.01`, `target = baseDist · (1 − 0.08·(weight−3))`,
`strength = 0.015 · weight`, spring force along the edge split equally and
oppositely between the endpoints. -/
def attractUpdate (sq : ℚ → ℚ) (nodes : List SimNode) (baseDist : ℚ)
    (F : ℕ → ℚ × ℚ) (e : SimEdge) : ℕ → ℚ × ℚ :=
  let a := nodes.getD e.a default
  let b := nodes.getD e.b default
  let dx := b.x - a.x
  let dy := b.y - a.y
  let dist := sq (dx * dx + dy * dy) + 1/100
  let target := baseDist * (1 - ((e.weight : ℚ) - 3) * (8/100))
  let strength := (15/1000) * (e.weight : ℚ)
  let diff := dist - target
  let fx := dx / dist * diff * strength
  let fy := dy / dist * diff * strength
  addForce (addForce F e.a (fx, fy)) e.b (-fx, -fy)

/-- The center-gravity loop: each node index below `n` is pulled toward the
center with factor `0.012`. -/
def gravityFold (nodes : List SimNode) (cx cy : ℚ) (F : ℕ → ℚ × ℚ) : ℕ → ℚ × ℚ :=
  (rangeFrom 0 nodes.length).foldl
    (fun G i =>
      addForce G i
        ((cx - (nodes.getD i default).x) * (12/1000),
         (cy - (nodes.getD i default).y) * (12/1000)))
    F

/-- The force phase of `_tick`: reset the accumulators, apply all-pairs
repulsion, edge attraction (with `baseDist = clamp(0.18·min(w,h), 80, 180)`),
then center gravity. -/
def forces (sq : ℚ → ℚ) (nodes : List SimNode) (edges : List SimEdge)
    (w h : ℚ) : ℕ → ℚ × ℚ :=
  let F1 := (pairList nodes.length).foldl (repelUpdate sq nodes) (fun _ => (0, 0))
  let baseDist := max 80 (min 180 (min w h * (18/100)))
  let F2 := edges.foldl (attractUpdate sq nodes baseDist) F1
  gravityFold nodes (w / 2) (h / 2) F2

/-- The integration body of `_tick` for one node: store the accumulated
force; a fixed node gets zero velocity and keeps its position; otherwise
`v = (v + f) · damping`, `pos += v`, and the position is clamped into
`[margin, dimension − margin]`. -/
def integrateNode (F : ℕ → ℚ × ℚ) (damping margin w h : ℚ) (i : ℕ)
    (node : SimNode) : SimNode :=
  let node1 := { node with fx := (F i).1, fy := (F i).2 }
  if node1.fixed then { node1 with vx := 0, vy := 0 }
  else
    let vx := (node1.vx + node1.fx) * damping
    let vy := (node1.vy + node1.fy) * damping
    { node1 with
      vx := vx, vy := vy,
      x := max margin (min (w - margin) (node1.x + vx)),
      y := max margin (min (h - margin) (node1.y + vy)) }

/-- `_tick(isWarmup)`: no-op on an empty node list, else force accumulation
followed by integration with damping `0.82` (warm-up) or `0.88` (loop) and
an 18-pixel clamping margin. -/
def tick (sq : ℚ → ℚ) (isWarmup : Bool) (s : GraphState) : GraphState :=
  if s.nodes.length = 0 then s
  else
    let w := if s.width = 0 then 800 else s.width
    let h := if s.height = 0 then 600 else s.height
    let F := forces sq s.nodes s.edges w h
    let damping : ℚ := if isWarmup then 82/100 else 88/100
    let margin : ℚ := 18
    { s with nodes := mapWithIdx (integrateNode F damping margin w h) s.nodes }

/-- `_warmup(iterations)`: iterate `_tick(true)`. -/
def warmup (sq : ℚ → ℚ) : ℕ → GraphState → GraphState
  | 0, s => s
  | k + 1, s => warmup sq k (tick sq true s)

/-- `setGraph(graph)`: build the model, then run the synchronous warm-up of
`min(420, 80 + 6·n)` iterations.  (The subsequent `start()` only schedules
the animation loop and changes no graph state.) -/
def setGraph (sq co si : ℚ → ℚ) (rand : ℕ → ℚ) (width height : ℚ)
    (g : GraphDocument) : GraphState :=
  let s := setGraphBuild co si rand width height g
  warmup sq (min 420 (80 + s.nodes.length * 6)) s

/-- `findNodeAt` scanning from index `i`: the source iterates the node list
in reverse and returns the first hit, i.e. the hit with the largest index. -/
def findHitFrom (px py : ℚ) : ℕ → List SimNode → Option ℕ
  | _, [] => none
  | i, n :: rest =>
    match findHitFrom px py (i + 1) rest with
    | some k => some k
    | none =>
      if (px - n.x) * (px - n.x) + (py - n.y) * (py - n.y) ≤ (n.r + 3) * (n.r + 3)
      then some i else none

/-- `findNodeAt(pos)`: highest-index node whose center lies within
`radius + 3` of the pointer, `-1` when none does. -/
def findNodeAt (s : GraphState) (px py : ℚ) : Int :=
  match findHitFrom px py 0 s.nodes with
  | some i => (i : Int)
  | none => -1

/-- The `mouseleave` handler: clears hover and drag indices (and hides the
tooltip; note it does not touch any node's `fixed` flag). -/
def onMouseLeave (s : GraphState) : GraphState :=
  { s with hoverIndex := -1, dragIndex := -1 }

/-- The `mouseup` handler: if a drag is active, clear the dragged node's
`fixed` flag and the drag index. -/
def onMouseUp (s : GraphState) : GraphState :=
  if s.dragIndex < 0 then s
  else
    { s with
      nodes := mapWithIdx
        (fun k n => if (k : Int) = s.dragIndex then { n with fixed := false } else n)
        s.nodes,
      dragIndex := -1 }

/-- The `mousedown` handler: on a hit node, pin it, snap it to the pointer
and record the drag index. -/
def onMouseDown (px py : ℚ) (s : GraphState) : GraphState :=
  match findHitFrom px py 0 s.nodes with
  | none => s
  | some idx =>
    { s with
      dragIndex := (idx : Int),
      nodes := mapWithIdx
        (fun k n => if k = idx then { n with fixed := true, x := px, y := py } else n)
        s.nodes }

/-- The per-edge opacity of `draw`:
`focus = hovered < 0 || e.a === hovered || e.b === hovered`, drawn at `0.55`
when focused and `0.12` otherwise. -/
def edgeAlpha (hovered : Int) (e : SimEdge) : ℚ :=
  if hovered < 0 ∨ (e.a : Int) = hovered ∨ (e.b : Int) = hovered then 55/100 else 12/100

/-- The `adjacent` set computed at the top of `draw`: the neighbors of the
hovered node. -/
def adjacentTo (edges : List SimEdge) (hovered : Int) : List ℕ :=
  edges.foldl
    (fun acc e =>
      if (e.a : Int) = hovered then acc ++ [e.b]
      else if (e.b : Int) = hovered then acc ++ [e.a] else acc)
    []

/-- The edge pass of `draw`, projected to the opacity applied to each edge. -/
def drawEdgeAlphas (s : GraphState) : List ℚ :=
  s.edges.map (edgeAlpha s.hoverIndex)

/-- The per-node opacity of `draw`: full for the hovered node and its
neighbors (or when nothing is hovered), `0.25` otherwise. -/
def nodeAlpha (edges : List SimEdge) (hovered : Int) (i : ℕ) : ℚ :=
  if hovered < 0 ∨ (i : Int) = hovered ∨ i ∈ adjacentTo edges hovered then 1 else 25/100

/-- The node pass of `draw`, projected to the opacity applied to each node. -/
def drawNodeAlphas (s : GraphState) : List ℚ :=
  (rangeFrom 0 s.nodes.length).map (nodeAlpha s.edges s.hoverIndex)

/-- Effective width used by `_tick` and `draw` (`this.width || 800`). -/
def effW (s : GraphState) : ℚ := if s.width = 0 then 800 else s.width

/-- Effective height used by `_tick` and `draw` (`this.height || 600`). -/
def effH (s : GraphState) : ℚ := if s.height = 0 then 600 else s.height

/-- The force accumulator a call of `_tick` computes on state `s`. -/
def tickForces (sq : ℚ → ℚ) (s : GraphState) : ℕ → ℚ × ℚ :=
  forces sq s.nodes s.edges (effW s) (effH s)

/-- The damping factor of `_tick`: `0.82` during warm-up, `0.88` in the loop. -/
def tickDamping (isWarmup : Bool) : ℚ := if isWarmup then 82/100 else 88/100

/-- Build-time identity fields of a node (never touched by the simulation). -/
def sigA (n : SimNode) : String × String × List String × String :=
  (n.id, n.title, n.tags, n.color)

/-- Build-time degree data of a node (never touched by the simulation). -/
def sigB (n : SimNode) : String × ℕ × ℚ :=
  (n.id, n.degree, n.r)

/-- A pinned node parked at the origin, as after a drag toward the top-left
corner of the canvas. -/
def pinnedNode : SimNode :=
  { (default : SimNode) with id := "p", title := "p", fixed := true }

/-- A one-node state whose only node is pinned outside the margin box. -/
def pinnedState : GraphState :=
  { nodes := [pinnedNode], edges := [], width := 800, height := 600,
    hoverIndex := -1, dragIndex := 0 }

/-- A free node at the center of an 800x600 viewport. -/
def freeNode : SimNode :=
  { (default : SimNode) with id := "q", title := "q", x := 400, y := 300 }

/-- A one-node state with a free node. -/
def freeState : GraphState :=
  { nodes := [freeNode], edges := [], width := 800, height := 600,
    hoverIndex := -1, dragIndex := -1 }

/-- Two distinct nodes sharing the same position (coincident). -/
def coincidentNodes : List SimNode :=
  [ { (default : SimNode) with id := "a", x := 100, y := 100 },
    { (default : SimNode) with id := "b", x := 100, y := 100 } ]

/-- A small document: two valid nodes, one valid edge, one self-loop edge and
one edge to an unknown id. -/
def docAB : GraphDocument :=
  { nodes := [ { id := "a", title := "Alpha", authors := "", year := "", tags := [ "x", "y"], summary := "" },
               { id := "b", title := "Beta", authors := "", year := "", tags := [], summary := "" } ],
    edges := [ { source := "a", target := "b", type := "", weight := some 5, reason := "" },
               { source := "a", target := "a", type := "s", weight := none, reason := "" },
               { source := "a", target := "zz", type := "u", weight := some 2, reason := "" } ],
    clusters := [] }

/-- A document with two raw nodes carrying the same id plus an edge to it. -/
def docDup : GraphDocument :=
  { nodes := [ { id := "a", title := "First", authors := "", year := "", tags := [], summary := "" },
               { id := "a", title := "Second", authors := "", year := "", tags := [], summary := "" },
               { id := "b", title := "Bee", authors := "", year := "", tags := [], summary := "" } ],
    edges := [ { source := "a", target := "b", type := "", weight := some 2, reason := "" } ],
    clusters := [] }

/-- A document with no nodes (its edges and clusters dangle). -/
def docEmpty : GraphDocument :=
  { nodes := [],
    edges := [ { source := "a", target := "b", type := "", weight := none, reason := "" } ],
    clusters := [ { node_ids := [ "a" ] } ] }

/-- A triangle edge list: node 0 linked to 1 and 2, and 1 linked to 2. -/
def triEdges : List SimEdge :=
  [ { a := 0, b := 1, type := "related", weight := 3, reason := "" },
    { a := 0, b := 2, type := "related", weight := 3, reason := "" },
    { a := 1, b := 2, type := "related", weight := 3, reason := "" } ]

/-- The repulsion contribution one loop pass adds to the second node of a
pair (and subtracts from the first): the direction vector scaled by
`1 / sqrt(dist2)` times the magnitude `5600 / dist2`. -/
def repelContrib (sq : ℚ → ℚ) (nodes : List SimNode) (i j : ℕ) : ℚ × ℚ :=
  let a := nodes.getD i default
  let b := nodes.getD j default
  let dx := b.x - a.x
  let dy := b.y - a.y
  let dist2 := dx * dx + dy * dy + 1/100
  (dx * (1 / sq dist2) * (5600 / dist2), dy * (1 / sq dist2) * (5600 / dist2))

/-- The regularized squared distance of the repulsion pass:
`dx² + dy² + 0.01`. -/
def repelDist2 (nodes : List SimNode) (i j : ℕ) : ℚ :=
  ((nodes.getD j default).x - (nodes.getD i default).x)
      * ((nodes.getD j default).x - (nodes.getD i default).x)
    + ((nodes.getD j default).y - (nodes.getD i default).y)
      * ((nodes.getD j default).y - (nodes.getD i default).y)
    + 1/100

/-- `docAB` built with fixed black-box functions and randomness. -/
def sAB : GraphState :=
  setGraph (fun q => q) (fun _ => 0) (fun _ => 0) (fun _ => 1/2) 800 600 docAB

/-- `docDup` built with fixed black-box functions and randomness. -/
def sDup : GraphState :=
  setGraph (fun q => q) (fun _ => 0) (fun _ => 0) (fun _ => 1/2) 800 600 docDup

/-- `docEmpty` built with fixed black-box functions and randomness. -/
def sEmpty : GraphState :=
  setGraph (fun q => q) (fun _ => 0) (fun _ => 0) (fun _ => 1/2) 800 600 docEmpty

/-- The radius formula of `setGraph`: `10 + 1.2·degree`, clamped to
`[10, 24]`. -/
def radiusOf (d : ℕ) : ℚ := max 10 (min 24 (10 + (d : ℚ) * (12/10)))

/-- The color rule of `setGraph`, as a function of a node's own build data:
the first cluster containing its id wins; otherwise the rolling hash of the
"|"-joined tag list (falling back to the title when that string is empty)
picks from the palette. -/
def colorFormula (clusters : List RawCluster) (id : String) (tags : List String)
    (title : String) : String :=
  match clusterOf clusters id with
  | some idx => colorForCluster idx
  | none =>
      colorForCluster
        (hashStr (let s := String.intercalate ("|") tags; if s = "" then title else s))

/-- A three-node triangle state with node 0 hovered: edges 0–1, 0–2 and the
neighbor–neighbor edge 1–2. -/
def triState : GraphState :=
  { nodes := [ { (default : SimNode) with id := "n0" },
               { (default : SimNode) with id := "n1" },
               { (default : SimNode) with id := "n2" } ],
    edges := triEdges, width := 800, height := 600, hoverIndex := 0, dragIndex := -1 }

/-! Infrastructure lemmas. -/

set_option maxRecDepth 100000

theorem length_mapWithIdxFrom (f : ℕ → SimNode → SimNode) :
    ∀ (l : List SimNode) (i : ℕ), (mapWithIdxFrom f i l).length = l.length := by
  intro l
  induction l with
  | nil => intro i; rfl
  | cons n rest ih => intro i; simp [mapWithIdxFrom, ih]

theorem length_mapWithIdx (f : ℕ → SimNode → SimNode) (l : List SimNode) :
    (mapWithIdx f l).length = l.length :=
  length_mapWithIdxFrom f l 0

theorem getD_mapWithIdxFrom (f : ℕ → SimNode → SimNode) :
    ∀ (l : List SimNode) (s k : ℕ) (d : SimNode), k < l.length →
      (mapWithIdxFrom f s l).getD k d = f (s + k) (l.getD k d) := by
  intro l
  induction l with
  | nil => intro s k d h; simp at h
  | cons n rest ih =>
    intro s k d h
    cases k with
    | zero => simp [mapWithIdxFrom]
    | succ k =>
      simp only [mapWithIdxFrom, List.getD_cons_succ]
      rw [ih (s + 1) k d (by simpa using h)]
      ring_nf

theorem getD_mapWithIdx (f : ℕ → SimNode → SimNode) (l : List SimNode)
    (k : ℕ) (d : SimNode) (h : k < l.length) :
    (mapWithIdx f l).getD k d = f k (l.getD k d) := by
  simpa using getD_mapWithIdxFrom f l 0 k d h

theorem map_mapWithIdxFrom {β : Type} (g : SimNode → β) (f : ℕ → SimNode → SimNode)
    (hf : ∀ i n, g (f i n) = g n) :
    ∀ (l : List SimNode) (i : ℕ), (mapWithIdxFrom f i l).map g = l.map g := by
  intro l
  induction l with
  | nil => intro i; rfl
  | cons n rest ih => intro i; simp [mapWithIdxFrom, hf, ih]

theorem map_mapWithIdx {β : Type} (g : SimNode → β) (f : ℕ → SimNode → SimNode)
    (hf : ∀ i n, g (f i n) = g n) (l : List SimNode) :
    (mapWithIdx f l).map g = l.map g :=
  map_mapWithIdxFrom g f hf l 0

theorem getD_mem {α : Type} : ∀ (l : List α) (i : ℕ) (d : α), i < l.length → l.getD i d ∈ l := by
  intro l
  induction l with
  | nil => intro i d h; simp at h
  | cons a rest ih =>
    intro i d h
    cases i with
    | zero => simp
    | succ i =>
      simp only [List.getD_cons_succ]
      exact List.mem_cons_of_mem a (ih i d (by simpa using h))

theorem getD_map_fn {α β : Type} (g : α → β) :
    ∀ (l : List α) (i : ℕ) (d : α), (l.map g).getD i (g d) = g (l.getD i d) := by
  intro l
  induction l with
  | nil => intro i d; simp
  | cons a rest ih =>
    intro i d
    cases i with
    | zero => simp
    | succ i => simpa using ih i d

theorem map_eq_imp_getD {α β : Type} (g : α → β) {l1 l2 : List α}
    (h : l1.map g = l2.map g) (i : ℕ) (d : α) (hi : i < l1.length) :
    g (l1.getD i d) = g (l2.getD i d) := by
  rw [← getD_map_fn g l1 i d, ← getD_map_fn g l2 i d, h]

theorem integrateNode_sigA (F : ℕ → ℚ × ℚ) (damping margin w h : ℚ) (i : ℕ) (n : SimNode) :
    sigA (integrateNode F damping margin w h i n) = sigA n := by
  simp only [integrateNode, sigA]
  split <;> rfl

theorem integrateNode_sigB (F : ℕ → ℚ × ℚ) (damping margin w h : ℚ) (i : ℕ) (n : SimNode) :
    sigB (integrateNode F damping margin w h i n) = sigB n := by
  simp only [integrateNode, sigB]
  split <;> rfl

theorem integrateNode_fixed (F : ℕ → ℚ × ℚ) (damping margin w h : ℚ) (i : ℕ) (n : SimNode) :
    (integrateNode F damping margin w h i n).fixed = n.fixed := by
  simp only [integrateNode]
  split <;> rfl

theorem tick_edges (sq : ℚ → ℚ) (b : Bool) (s : GraphState) : (tick sq b s).edges = s.edges := by
  simp only [tick]
  split <;> rfl

theorem tick_width (sq : ℚ → ℚ) (b : Bool) (s : GraphState) : (tick sq b s).width = s.width := by
  simp only [tick]
  split <;> rfl

theorem tick_height (sq : ℚ → ℚ) (b : Bool) (s : GraphState) : (tick sq b s).height = s.height := by
  simp only [tick]
  split <;> rfl

theorem tick_map_sigA (sq : ℚ → ℚ) (b : Bool) (s : GraphState) :
    (tick sq b s).nodes.map sigA = s.nodes.map sigA := by
  simp only [tick]
  split
  · rfl
  · exact map_mapWithIdx sigA _ (fun i n => integrateNode_sigA _ _ _ _ _ i n) s.nodes

theorem tick_map_sigB (sq : ℚ → ℚ) (b : Bool) (s : GraphState) :
    (tick sq b s).nodes.map sigB = s.nodes.map sigB := by
  simp only [tick]
  split
  · rfl
  · exact map_mapWithIdx sigB _ (fun i n => integrateNode_sigB _ _ _ _ _ i n) s.nodes

theorem warmup_edges (sq : ℚ → ℚ) : ∀ (k : ℕ) (s : GraphState), (warmup sq k s).edges = s.edges := by
  intro k
  induction k with
  | zero => intro s; rfl
  | succ k ih => intro s; rw [warmup, ih, tick_edges]

theorem warmup_map_sigA (sq : ℚ → ℚ) :
    ∀ (k : ℕ) (s : GraphState), (warmup sq k s).nodes.map sigA = s.nodes.map sigA := by
  intro k
  induction k with
  | zero => intro s; rfl
  | succ k ih => intro s; rw [warmup, ih, tick_map_sigA]

theorem warmup_map_sigB (sq : ℚ → ℚ) :
    ∀ (k : ℕ) (s : GraphState), (warmup sq k s).nodes.map sigB = s.nodes.map sigB := by
  intro k
  induction k with
  | zero => intro s; rfl
  | succ k ih => intro s; rw [warmup, ih, tick_map_sigB]

theorem seedPositions_map_sigA (co si : ℚ → ℚ) (rand : ℕ → ℚ) (w h : ℚ) (l : List SimNode) :
    (seedPositions co si rand w h l).map sigA = l.map sigA := by
  refine map_mapWithIdx sigA _ (fun i n => ?_) l
  rfl

theorem seedPositions_map_sigB (co si : ℚ → ℚ) (rand : ℕ → ℚ) (w h : ℚ) (l : List SimNode) :
    (seedPositions co si rand w h l).map sigB = l.map sigB := by
  refine map_mapWithIdx sigB _ (fun i n => ?_) l
  rfl

theorem degreedNodes_map_sigA (g : GraphDocument) :
    (degreedNodes g).map sigA = (builtNodes g).map sigA := by
  refine map_mapWithIdx sigA _ (fun i n => ?_) (builtNodes g)
  rfl

theorem setGraph_edges_eq (sq co si : ℚ → ℚ) (rand : ℕ → ℚ) (w h : ℚ) (g : GraphDocument) :
    (setGraph sq co si rand w h g).edges = builtEdges g := by
  rw [setGraph, warmup_edges]
  rfl

theorem setGraph_map_sigA (sq co si : ℚ → ℚ) (rand : ℕ → ℚ) (w h : ℚ) (g : GraphDocument) :
    (setGraph sq co si rand w h g).nodes.map sigA = (builtNodes g).map sigA := by
  rw [setGraph, warmup_map_sigA]
  show (seedPositions co si rand w h (degreedNodes g)).map sigA = _
  rw [seedPositions_map_sigA, degreedNodes_map_sigA]

theorem setGraph_map_sigB (sq co si : ℚ → ℚ) (rand : ℕ → ℚ) (w h : ℚ) (g : GraphDocument) :
    (setGraph sq co si rand w h g).nodes.map sigB = (degreedNodes g).map sigB := by
  rw [setGraph, warmup_map_sigB]
  exact seedPositions_map_sigB co si rand w h (degreedNodes g)

theorem setGraph_nodes_length (sq co si : ℚ → ℚ) (rand : ℕ → ℚ) (w h : ℚ) (g : GraphDocument) :
    (setGraph sq co si rand w h g).nodes.length = (builtNodes g).length := by
  have := congrArg List.length (setGraph_map_sigA sq co si rand w h g)
  simpa using this

theorem nodeIndexFrom_none_of (id : String) :
    ∀ (l : List SimNode) (s : ℕ), (∀ n ∈ l, n.id ≠ id) → nodeIndexFrom id s l = none := by
  intro l
  induction l with
  | nil => intro s _; rfl
  | cons n rest ih =>
    intro s h
    have hrest : nodeIndexFrom id (s + 1) rest = none :=
      ih (s + 1) (fun m hm => h m (List.mem_cons_of_mem n hm))
    have hn : n.id ≠ id := h n (List.mem_cons_self n rest)
    simp [nodeIndexFrom, hrest, hn]

theorem nodeIndexFrom_none_imp (id : String) :
    ∀ (l : List SimNode) (s : ℕ), nodeIndexFrom id s l = none → ∀ n ∈ l, n.id ≠ id := by
  intro l
  induction l with
  | nil => intro s _ n hn; simp at hn
  | cons m rest ih =>
    intro s h n hn
    rw [nodeIndexFrom] at h
    cases h' : nodeIndexFrom id (s + 1) rest with
    | some k => rw [h'] at h; simp at h
    | none =>
      rw [h'] at h
      simp only at h
      by_cases hm : m.id = id
      · rw [if_pos hm] at h; simp at h
      · rcases List.mem_cons.mp hn with rfl | hn2
        · exact hm
        · exact ih (s + 1) h' n hn2

theorem nodeIndexFrom_some_inv (id : String) :
    ∀ (l : List SimNode) (s k : ℕ), nodeIndexFrom id s l = some k →
      s ≤ k ∧ k - s < l.length ∧ (∀ d, (l.getD (k - s) d).id = id) ∧
        ∀ j, k - s < j → j < l.length → ∀ d, (l.getD j d).id ≠ id := by
  intro l
  induction l with
  | nil => intro s k h; simp [nodeIndexFrom] at h
  | cons m rest ih =>
    intro s k h
    rw [nodeIndexFrom] at h
    cases h' : nodeIndexFrom id (s + 1) rest with
    | some k' =>
      rw [h'] at h
      simp only [Option.some.injEq] at h
      subst h
      obtain ⟨hs, hlt, hid, hlast⟩ := ih (s + 1) k' h'
      have hks : s + 1 ≤ k' := hs
      have hsub : k' - s = (k' - (s + 1)) + 1 := by omega
      refine ⟨by omega, by simp; omega, ?_, ?_⟩
      · intro d
        rw [hsub, List.getD_cons_succ]
        exact hid d
      · intro j hj hjlen d
        have hj1 : 1 ≤ j := by omega
        obtain ⟨j', rfl⟩ : ∃ j', j = j' + 1 := ⟨j - 1, by omega⟩
        rw [List.getD_cons_succ]
        exact hlast j' (by omega) (by simpa using hjlen) d
    | none =>
      rw [h'] at h
      simp only at h
      by_cases hm : m.id = id
      · rw [if_pos hm] at h
        simp only [Option.some.injEq] at h
        subst h
        refine ⟨le_refl s, by simp, ?_, ?_⟩
        · intro d; simpa using hm
        · intro j hj hjlen d
          have hj1 : 1 ≤ j := by omega
          obtain ⟨j', rfl⟩ : ∃ j', j = j' + 1 := ⟨j - 1, by omega⟩
          rw [List.getD_cons_succ]
          have := nodeIndexFrom_none_imp id rest (s + 1) h'
          exact this _ (getD_mem rest j' d (by simpa using hjlen))
      · rw [if_neg hm] at h
        simp at h

theorem nodeIndexOf_some_inv (nodes : List SimNode) (id : String) (k : ℕ)
    (h : nodeIndexOf nodes id = some k) :
    k < nodes.length ∧ (∀ d, (nodes.getD k d).id = id) ∧
      ∀ j, k < j → j < nodes.length → ∀ d, (nodes.getD j d).id ≠ id := by
  obtain ⟨_, hlt, hid, hlast⟩ := nodeIndexFrom_some_inv id nodes 0 k h
  simp only [Nat.sub_zero] at hlt hid hlast
  exact ⟨hlt, hid, hlast⟩

theorem nodeIndexOf_none_of (nodes : List SimNode) (id : String)
    (h : ∀ n ∈ nodes, n.id ≠ id) : nodeIndexOf nodes id = none :=
  nodeIndexFrom_none_of id nodes 0 h

theorem buildEdge_some_inv (nodes : List SimNode) (re : RawEdge) (e : SimEdge)
    (h : buildEdge nodes re = some e) :
    ∃ a b, nodeIndexOf nodes re.source = some a ∧ nodeIndexOf nodes re.target = some b ∧
      a ≠ b ∧ e.a = a ∧ e.b = b := by
  rw [buildEdge] at h
  cases hsa : nodeIndexOf nodes re.source with
  | none => rw [hsa] at h; simp at h
  | some a =>
    cases hsb : nodeIndexOf nodes re.target with
    | none => rw [hsa, hsb] at h; simp at h
    | some b =>
      rw [hsa, hsb] at h
      simp only at h
      by_cases hab : a = b
      · rw [if_pos hab] at h; simp at h
      · rw [if_neg hab] at h
        simp only [Option.some.injEq] at h
        subst h
        exact ⟨a, b, rfl, rfl, hab, rfl, rfl⟩

theorem buildEdge_drop (nodes : List SimNode) (re : RawEdge)
    (h : (∀ n ∈ nodes, n.id ≠ re.source) ∨ (∀ n ∈ nodes, n.id ≠ re.target) ∨
         re.source = re.target) :
    buildEdge nodes re = none := by
  rcases h with h | h | h
  · rw [buildEdge, nodeIndexOf_none_of nodes re.source h]
  · rw [buildEdge, nodeIndexOf_none_of nodes re.target h]
    cases nodeIndexOf nodes re.source <;> rfl
  · rw [buildEdge, h]
    cases nodeIndexOf nodes re.target with
    | none => rfl
    | some a => simp

theorem degreeFold_apply :
    ∀ (edges : List SimEdge) (d0 : ℕ → ℕ) (k : ℕ),
      (edges.foldl (fun d e => bump (bump d e.a) e.b) d0) k
        = d0 k + edges.countP (fun e => e.a == k) + edges.countP (fun e => e.b == k) := by
  intro edges
  induction edges with
  | nil => intro d0 k; simp
  | cons e es ih =>
    intro d0 k
    rw [List.foldl_cons, ih]
    have hc1 : (k = e.a) = (e.a = k) := propext eq_comm
    have hc2 : (k = e.b) = (e.b = k) := propext eq_comm
    simp only [List.countP_cons, bump, hc1, hc2, beq_iff_eq]
    by_cases h1 : e.a = k <;> by_cases h2 : e.b = k <;> simp [h1, h2] <;> omega

theorem countP_or_split (k : ℕ) :
    ∀ (edges : List SimEdge), (∀ e ∈ edges, e.a ≠ e.b) →
      edges.countP (fun e => decide (e.a = k ∨ e.b = k))
        = edges.countP (fun e => e.a == k) + edges.countP (fun e => e.b == k) := by
  intro edges
  induction edges with
  | nil => intro _; simp
  | cons e es ih =>
    intro hab
    have hab' : ∀ x ∈ es, x.a ≠ x.b := fun x hx => hab x (List.mem_cons_of_mem e hx)
    have habe : e.a ≠ e.b := hab e (List.mem_cons_self e es)
    simp only [List.countP_cons, ih hab', beq_iff_eq]
    by_cases h1 : e.a = k <;> by_cases h2 : e.b = k
    · exact absurd (h1.trans h2.symm) habe
    · simp [h1, h2]; omega
    · simp [h1, h2]; omega
    · simp [h1, h2]

theorem degreeMap_eq (edges : List SimEdge) (hab : ∀ e ∈ edges, e.a ≠ e.b) (k : ℕ) :
    degreeMap edges k = (edges.filter (fun e => decide (e.a = k ∨ e.b = k))).length := by
  rw [degreeMap, degreeFold_apply]
  rw [← List.countP_eq_length_filter]
  rw [countP_or_split k edges hab]
  omega

theorem mem_rangeFrom : ∀ (k s m : ℕ), m ∈ rangeFrom s k ↔ s ≤ m ∧ m < s + k := by
  intro k
  induction k with
  | zero => intro s m; simp [rangeFrom]
  | succ k ih =>
    intro s m
    simp only [rangeFrom, List.mem_cons, ih]
    omega

theorem count_rangeFrom : ∀ (k s m : ℕ),
    (rangeFrom s k).count m = if s ≤ m ∧ m < s + k then 1 else 0 := by
  intro k
  induction k with
  | zero =>
    intro s m
    simp only [rangeFrom, List.count_nil]
    split_ifs with h
    · omega
    · rfl
  | succ k ih =>
    intro s m
    simp only [rangeFrom, List.count_cons, ih]
    by_cases h : m = s <;> split_ifs <;> simp [h] at * <;> omega

theorem nodup_rangeFrom : ∀ (k s : ℕ), (rangeFrom s k).Nodup := by
  intro k
  induction k with
  | zero => intro s; simp [rangeFrom]
  | succ k ih =>
    intro s
    refine List.nodup_cons.mpr ⟨?_, ih (s + 1)⟩
    rw [mem_rangeFrom]
    omega

theorem count_map_pair (i a b : ℕ) : ∀ (l : List ℕ),
    ((l.map (fun j => (i, j))).count (a, b)) = if a = i then l.count b else 0 := by
  intro l
  induction l with
  | nil => simp
  | cons j l ih =>
    simp only [List.map_cons, List.count_cons, ih, Prod.mk.injEq]
    by_cases ha : a = i <;> by_cases hb : b = j <;> simp [ha, hb] <;> omega

theorem count_foldr_append {α β : Type} [BEq β] (f : α → List β) (x : β) :
    ∀ (L : List α),
      ((L.foldr (fun i acc => f i ++ acc) []).count x) = (L.map (fun i => (f i).count x)).sum := by
  intro L
  induction L with
  | nil => simp
  | cons i L ih => simp [List.count_append, ih]

theorem sum_ite_eq_single (a : ℕ) (v : ℕ → ℕ) :
    ∀ (L : List ℕ), L.Nodup →
      (L.map (fun i => if a = i then v i else 0)).sum = if a ∈ L then v a else 0 := by
  intro L
  induction L with
  | nil => simp
  | cons i L ih =>
    intro hnd
    obtain ⟨hni, hnd'⟩ := List.nodup_cons.mp hnd
    simp only [List.map_cons, List.sum_cons, ih hnd', List.mem_cons]
    by_cases ha : a = i
    · subst ha
      simp [hni]
    · simp [ha]

theorem count_pairList (n a b : ℕ) :
    (pairList n).count (a, b) = if a < b ∧ b < n then 1 else 0 := by
  have h0 := count_foldr_append
    (fun i => (rangeFrom (i + 1) (n - (i + 1))).map (fun j => (i, j))) (a, b) (rangeFrom 0 n)
  rw [pairList, h0]
  have hmap : ((rangeFrom 0 n).map
        (fun i => (((rangeFrom (i + 1) (n - (i + 1))).map (fun j => (i, j))).count (a, b))))
      = ((rangeFrom 0 n).map
        (fun i => if a = i then (rangeFrom (a + 1) (n - (a + 1))).count b else 0)) := by
    refine List.map_congr_left ?_
    intro i _
    rw [count_map_pair]
    by_cases ha : a = i
    · subst ha; simp
    · simp [ha]
  rw [hmap, sum_ite_eq_single a _ _ (nodup_rangeFrom n 0)]
  simp only [mem_rangeFrom, count_rangeFrom]
  split_ifs <;> omega

theorem mem_pairList (n a b : ℕ) : (a, b) ∈ pairList n ↔ a < b ∧ b < n := by
  have h := count_pairList n a b
  constructor
  · intro hm
    by_contra hc
    rw [if_neg hc] at h
    exact absurd (List.count_pos_iff.mpr hm) (by omega)
  · intro hc
    rw [if_pos hc] at h
    exact List.count_pos_iff.mp (by omega)

theorem addForce_self (F : ℕ → ℚ × ℚ) (i : ℕ) (d : ℚ × ℚ) :
    addForce F i d i = ((F i).1 + d.1, (F i).2 + d.2) := by
  simp [addForce]

theorem addForce_other (F : ℕ → ℚ × ℚ) (i : ℕ) (d : ℚ × ℚ) (k : ℕ) (h : k ≠ i) :
    addForce F i d k = F k := by
  simp [addForce, h]

theorem tick_nodes_getD (sq : ℚ → ℚ) (b : Bool) (s : GraphState) (i : ℕ) (d : SimNode)
    (hi : i < s.nodes.length) :
    (tick sq b s).nodes.getD i d
      = integrateNode (tickForces sq s) (tickDamping b) 18 (effW s) (effH s) i
          (s.nodes.getD i d) := by
  have hne : ¬ (s.nodes.length = 0) := by omega
  rw [tick, if_neg hne]
  exact getD_mapWithIdx _ s.nodes i d hi

/-- C1 (counterexample): the claim says the integrator clamps every node's
position into `[18, width−18] × [18, height−18]` on every tick, including
ticks where some node has `fixed = true`.  On a state whose single node is
pinned (`fixed = true`) at the origin, one `_tick` leaves that node at
`x = 0 < 18`: the integration loop `continue`s over fixed nodes before the
clamping lines, so a fixed node is never clamped. -/
theorem tick_fixed_escapes_margin_cex :
    ((tick (fun q => q) false pinnedState).nodes.getD 0 default).x = 0 ∧
    ¬ (18 ≤ ((tick (fun q => q) false pinnedState).nodes.getD 0 default).x) ∧
    (pinnedState.nodes.getD 0 default).fixed = true ∧
    pinnedState.width = 800 ∧ pinnedState.height = 600 := by
  decide

/-- C1 (amended): on every tick over a viewport at least 36 pixels wide and
high, every node whose `fixed` flag is false is clamped into
`[18, width−18] × [18, height−18]`; a node whose `fixed` flag is true keeps
its position unchanged (it is skipped by the integrator, clamping included). -/
theorem tick_clamps_free_nodes (sq : ℚ → ℚ) (b : Bool) (s : GraphState) (i : ℕ) (d : SimNode)
    (hi : i < s.nodes.length) (hw : 36 ≤ s.width) (hh : 36 ≤ s.height) :
    ((s.nodes.getD i d).fixed = false →
      18 ≤ ((tick sq b s).nodes.getD i d).x ∧
      ((tick sq b s).nodes.getD i d).x ≤ s.width - 18 ∧
      18 ≤ ((tick sq b s).nodes.getD i d).y ∧
      ((tick sq b s).nodes.getD i d).y ≤ s.height - 18) ∧
    ((s.nodes.getD i d).fixed = true →
      ((tick sq b s).nodes.getD i d).x = (s.nodes.getD i d).x ∧
      ((tick sq b s).nodes.getD i d).y = (s.nodes.getD i d).y) := by
  have hw0 : s.width ≠ 0 := by intro h; rw [h] at hw; norm_num at hw
  have hh0 : s.height ≠ 0 := by intro h; rw [h] at hh; norm_num at hh
  have heW : effW s = s.width := by rw [effW, if_neg hw0]
  have heH : effH s = s.height := by rw [effH, if_neg hh0]
  rw [tick_nodes_getD sq b s i d hi]
  rw [integrateNode, heW, heH]
  constructor
  · intro hfree
    rw [if_neg (by simpa [List.getD] using hfree)]
    refine ⟨le_max_left _ _, ?_, le_max_left _ _, ?_⟩
    · apply max_le
      · linarith
      · exact le_trans (min_le_left _ _) (le_refl _)
    · apply max_le
      · linarith
      · exact le_trans (min_le_left _ _) (le_refl _)
  · intro hfix
    rw [if_pos (by simpa [List.getD] using hfix)]
    exact ⟨rfl, rfl⟩

/-- C1 (witness for the amended theorem): instantiated on a one-node state
with a free node at the viewport center. -/
theorem tick_clamps_free_nodes_witness :
    18 ≤ ((tick (fun q => q) false freeState).nodes.getD 0 default).x ∧
    ((tick (fun q => q) false freeState).nodes.getD 0 default).x ≤ freeState.width - 18 ∧
    18 ≤ ((tick (fun q => q) false freeState).nodes.getD 0 default).y ∧
    ((tick (fun q => q) false freeState).nodes.getD 0 default).y ≤ freeState.height - 18 :=
  (tick_clamps_free_nodes (fun q => q) false freeState 0 default (by decide) (by decide)
    (by decide)).1 (by decide)

/-- C3: on every tick, a node with `fixed = false` gets velocity
`(velocity + accumulated force) · damping` — damping exactly `0.82` for
warm-up ticks and `0.88` for animated-loop ticks — and its position is the
increment by that new velocity (then clamped by the containment step); a node
with `fixed = true` gets velocity zero and keeps its position. -/
theorem tick_integration_rule (sq : ℚ → ℚ) (b : Bool) (s : GraphState) (i : ℕ) (d : SimNode)
    (hi : i < s.nodes.length) :
    ((tick sq b s).nodes.getD i d).fx = (tickForces sq s i).1 ∧
    ((tick sq b s).nodes.getD i d).fy = (tickForces sq s i).2 ∧
    ((s.nodes.getD i d).fixed = false →
      ((tick sq b s).nodes.getD i d).vx
          = ((s.nodes.getD i d).vx + (tickForces sq s i).1) * tickDamping b ∧
      ((tick sq b s).nodes.getD i d).vy
          = ((s.nodes.getD i d).vy + (tickForces sq s i).2) * tickDamping b ∧
      ((tick sq b s).nodes.getD i d).x
          = max 18 (min (effW s - 18)
              ((s.nodes.getD i d).x + ((tick sq b s).nodes.getD i d).vx)) ∧
      ((tick sq b s).nodes.getD i d).y
          = max 18 (min (effH s - 18)
              ((s.nodes.getD i d).y + ((tick sq b s).nodes.getD i d).vy))) ∧
    ((s.nodes.getD i d).fixed = true →
      ((tick sq b s).nodes.getD i d).vx = 0 ∧
      ((tick sq b s).nodes.getD i d).vy = 0 ∧
      ((tick sq b s).nodes.getD i d).x = (s.nodes.getD i d).x ∧
      ((tick sq b s).nodes.getD i d).y = (s.nodes.getD i d).y) ∧
    tickDamping true = 82/100 ∧ tickDamping false = 88/100 := by
  rw [tick_nodes_getD sq b s i d hi, integrateNode]
  by_cases hfix : (s.nodes.getD i d).fixed = true
  · rw [if_pos (by simpa [List.getD] using hfix)]
    refine ⟨rfl, rfl, ?_, ?_, rfl, rfl⟩
    · intro hfree
      rw [hfix] at hfree
      exact absurd hfree (by simp)
    · intro _
      exact ⟨rfl, rfl, rfl, rfl⟩
  · rw [if_neg (by simpa [List.getD] using hfix)]
    refine ⟨rfl, rfl, ?_, ?_, rfl, rfl⟩
    · intro _
      exact ⟨rfl, rfl, rfl, rfl⟩
    · intro hf
      exact absurd hf hfix

/-- C3 (witness): the integration rule instantiated on a one-node state with
a free node at the center of an 800x600 viewport. -/
theorem tick_integration_rule_witness :
    ((tick (fun q => q) true freeState).nodes.getD 0 default).vx
        = ((freeState.nodes.getD 0 default).vx + (tickForces (fun q => q) freeState 0).1)
            * tickDamping true ∧
    ((tick (fun q => q) true freeState).nodes.getD 0 default).vy
        = ((freeState.nodes.getD 0 default).vy + (tickForces (fun q => q) freeState 0).2)
            * tickDamping true ∧
    ((tick (fun q => q) true freeState).nodes.getD 0 default).x
        = max 18 (min (effW freeState - 18)
            ((freeState.nodes.getD 0 default).x
              + ((tick (fun q => q) true freeState).nodes.getD 0 default).vx)) ∧
    ((tick (fun q => q) true freeState).nodes.getD 0 default).y
        = max 18 (min (effH freeState - 18)
            ((freeState.nodes.getD 0 default).y
              + ((tick (fun q => q) true freeState).nodes.getD 0 default).vy)) :=
  (tick_integration_rule (fun q => q) true freeState 0 default (by decide)).2.2.1 (by decide)

/-- C4: for every pair of distinct node indices, the repulsion pass adds to
the second node's force accumulator the direction vector scaled by
`1/sqrt(dist2)` times the magnitude `5600/dist2`, subtracts exactly the same
vector from the first node (equal magnitude, opposite direction), and leaves
every other accumulator unchanged; `dist2` carries the additive `+0.01`
regularization, so it is at least `0.01` — equal to `0.01` for coincident
positions — and never zero; and the nested loops visit each unordered pair
`i < j < n` exactly once. -/
theorem repulsion_pair_step (sq : ℚ → ℚ) (nodes : List SimNode) (F : ℕ → ℚ × ℚ)
    (i j : ℕ) (hij : i ≠ j) :
    repelUpdate sq nodes F (i, j) j
        = ((F j).1 + (repelContrib sq nodes i j).1,
           (F j).2 + (repelContrib sq nodes i j).2) ∧
    repelUpdate sq nodes F (i, j) i
        = ((F i).1 - (repelContrib sq nodes i j).1,
           (F i).2 - (repelContrib sq nodes i j).2) ∧
    (∀ k, k ≠ i → k ≠ j → repelUpdate sq nodes F (i, j) k = F k) ∧
    repelContrib sq nodes i j
        = (((nodes.getD j default).x - (nodes.getD i default).x)
              * (1 / sq (repelDist2 nodes i j)) * (5600 / repelDist2 nodes i j),
           ((nodes.getD j default).y - (nodes.getD i default).y)
              * (1 / sq (repelDist2 nodes i j)) * (5600 / repelDist2 nodes i j)) ∧
    1/100 ≤ repelDist2 nodes i j ∧
    ((nodes.getD i default).x = (nodes.getD j default).x →
      (nodes.getD i default).y = (nodes.getD j default).y →
      repelDist2 nodes i j = 1/100) ∧
    (pairList nodes.length).count (i, j)
        = if i < j ∧ j < nodes.length then 1 else 0 := by
  have hji : j ≠ i := fun h => hij h.symm
  refine ⟨?_, ?_, ?_, rfl, ?_, ?_, count_pairList nodes.length i j⟩
  · simp [repelUpdate, addForce, repelContrib, hji]
  · have h2 : repelUpdate sq nodes F (i, j) i
        = ((F i).1 + -(repelContrib sq nodes i j).1,
           (F i).2 + -(repelContrib sq nodes i j).2) := by
      simp [repelUpdate, addForce, repelContrib, hij]
    rw [h2, sub_eq_add_neg, sub_eq_add_neg]
  · intro k hki hkj
    simp [repelUpdate, addForce, hki, hkj]
  · have h1 := mul_self_nonneg
      ((nodes.getD j default).x - (nodes.getD i default).x)
    have h2 := mul_self_nonneg
      ((nodes.getD j default).y - (nodes.getD i default).y)
    rw [repelDist2]
    linarith
  · intro hx hy
    rw [repelDist2, hx, hy]
    ring

/-- C4 (witness): the repulsion step instantiated on two coincident nodes
starting from a zero accumulator. -/
theorem repulsion_pair_step_witness :
    repelUpdate (fun q => q) coincidentNodes (fun _ => (0, 0)) (0, 1) 1
        = (0 + (repelContrib (fun q => q) coincidentNodes 0 1).1,
           0 + (repelContrib (fun q => q) coincidentNodes 0 1).2) ∧
    1/100 ≤ repelDist2 coincidentNodes 0 1 :=
  ⟨(repulsion_pair_step (fun q => q) coincidentNodes (fun _ => (0, 0)) 0 1 (by decide)).1,
   (repulsion_pair_step (fun q => q) coincidentNodes (fun _ => (0, 0)) 0 1
      (by decide)).2.2.2.2.1⟩

/-- C2: after `setGraph`, every built edge's endpoint indices are valid
indices into the node list and differ from each other; and a raw edge whose
source or target matches no surviving node's id, or whose source equals its
target, is dropped by the edge builder. -/
theorem setGraph_edges_valid (sq co si : ℚ → ℚ) (rand : ℕ → ℚ) (w h : ℚ)
    (g : GraphDocument) :
    (∀ k, k < (setGraph sq co si rand w h g).edges.length →
      ((setGraph sq co si rand w h g).edges.getD k default).a
          < (setGraph sq co si rand w h g).nodes.length ∧
      ((setGraph sq co si rand w h g).edges.getD k default).b
          < (setGraph sq co si rand w h g).nodes.length ∧
      ((setGraph sq co si rand w h g).edges.getD k default).a
          ≠ ((setGraph sq co si rand w h g).edges.getD k default).b) ∧
    (∀ re ∈ g.edges,
      ((∀ n ∈ builtNodes g, n.id ≠ re.source) ∨ (∀ n ∈ builtNodes g, n.id ≠ re.target) ∨
        re.source = re.target) →
      buildEdge (builtNodes g) re = none) := by
  constructor
  · intro k hk
    rw [setGraph_edges_eq] at hk ⊢
    rw [setGraph_nodes_length]
    have hmem : (builtEdges g).getD k default ∈ builtEdges g :=
      getD_mem (builtEdges g) k default hk
    rw [builtEdges] at hmem
    obtain ⟨re, _, hre⟩ := List.mem_filterMap.mp hmem
    obtain ⟨a, b, hsa, hsb, hab, hea, heb⟩ :=
      buildEdge_some_inv (builtNodes g) re _ hre
    obtain ⟨hal, _, _⟩ := nodeIndexOf_some_inv (builtNodes g) re.source a hsa
    obtain ⟨hbl, _, _⟩ := nodeIndexOf_some_inv (builtNodes g) re.target b hsb
    rw [builtEdges, hea, heb]
    exact ⟨hal, hbl, fun hc => hab hc⟩
  · intro re _ hdrop
    exact buildEdge_drop (builtNodes g) re hdrop

/-- C2 (witness): the endpoint-validity part instantiated on the first built
edge of `docAB`. -/
theorem setGraph_edges_valid_witness :
    (sAB.edges.getD 0 default).a < sAB.nodes.length ∧
    (sAB.edges.getD 0 default).b < sAB.nodes.length ∧
    (sAB.edges.getD 0 default).a ≠ (sAB.edges.getD 0 default).b :=
  (setGraph_edges_valid (fun q => q) (fun _ => 0) (fun _ => 0) (fun _ => 1/2) 800 600
    docAB).1 0 (by decide)

theorem radiusOf_mono {d1 d2 : ℕ} (h : d1 ≤ d2) : radiusOf d1 ≤ radiusOf d2 := by
  rw [radiusOf, radiusOf]
  refine max_le_max (le_refl _) (min_le_min (le_refl _) ?_)
  have : (d1 : ℚ) ≤ (d2 : ℚ) := by exact_mod_cast h
  nlinarith

theorem radiusOf_bounds (d : ℕ) : 10 ≤ radiusOf d ∧ radiusOf d ≤ 24 := by
  constructor
  · exact le_max_left _ _
  · rw [radiusOf]
    apply max_le
    · norm_num
    · exact min_le_left _ _

theorem builtEdges_ne (g : GraphDocument) : ∀ e ∈ builtEdges g, e.a ≠ e.b := by
  intro e he
  rw [builtEdges] at he
  obtain ⟨re, _, hre⟩ := List.mem_filterMap.mp he
  obtain ⟨a, b, _, _, hab, hea, heb⟩ := buildEdge_some_inv _ re e hre
  rw [hea, heb]
  exact hab

theorem degreedNodes_getD (g : GraphDocument) (i : ℕ) (d : SimNode)
    (hi : i < (builtNodes g).length) :
    (degreedNodes g).getD i d
      = { (builtNodes g).getD i d with
          degree := degreeMap (builtEdges g) i,
          r := max 10 (min 24 (10 + (degreeMap (builtEdges g) i : ℚ) * (12/10))) } := by
  rw [degreedNodes]
  exact getD_mapWithIdx _ (builtNodes g) i d hi

/-- C8: after `setGraph`, each node's `degree` equals the number of built
edges referencing its index, its radius is `10 + 1.2·degree` clamped to
`[10, 24]`, hence lies within `[10, 24]` and is monotonically non-decreasing
in the degree. -/
theorem setGraph_degree_radius (sq co si : ℚ → ℚ) (rand : ℕ → ℚ) (w h : ℚ)
    (g : GraphDocument) (i : ℕ)
    (hi : i < (setGraph sq co si rand w h g).nodes.length) :
    ((setGraph sq co si rand w h g).nodes.getD i default).degree
        = ((setGraph sq co si rand w h g).edges.filter
            (fun e => decide (e.a = i ∨ e.b = i))).length ∧
    ((setGraph sq co si rand w h g).nodes.getD i default).r
        = radiusOf ((setGraph sq co si rand w h g).nodes.getD i default).degree ∧
    10 ≤ ((setGraph sq co si rand w h g).nodes.getD i default).r ∧
    ((setGraph sq co si rand w h g).nodes.getD i default).r ≤ 24 ∧
    (∀ j, j < (setGraph sq co si rand w h g).nodes.length →
      ((setGraph sq co si rand w h g).nodes.getD i default).degree
          ≤ ((setGraph sq co si rand w h g).nodes.getD j default).degree →
      ((setGraph sq co si rand w h g).nodes.getD i default).r
          ≤ ((setGraph sq co si rand w h g).nodes.getD j default).r) := by
  have hlen := setGraph_nodes_length sq co si rand w h g
  have hmapB := setGraph_map_sigB sq co si rand w h g
  have hlenD : (builtNodes g).length = (degreedNodes g).length := by
    rw [degreedNodes, mapWithIdx, length_mapWithIdxFrom]
  have key : ∀ m, m < (setGraph sq co si rand w h g).nodes.length →
      ((setGraph sq co si rand w h g).nodes.getD m default).degree
          = degreeMap (builtEdges g) m ∧
      ((setGraph sq co si rand w h g).nodes.getD m default).r
          = radiusOf (degreeMap (builtEdges g) m) := by
    intro m hm
    have hsig := map_eq_imp_getD sigB hmapB m default hm
    have hmB : m < (builtNodes g).length := by omega
    rw [degreedNodes_getD g m default hmB] at hsig
    rw [sigB, sigB] at hsig
    have hdeg : ((setGraph sq co si rand w h g).nodes.getD m default).degree
        = degreeMap (builtEdges g) m := congrArg (fun p => p.2.1) hsig
    have hr : ((setGraph sq co si rand w h g).nodes.getD m default).r
        = max 10 (min 24 (10 + (degreeMap (builtEdges g) m : ℚ) * (12/10))) :=
      congrArg (fun p => p.2.2) hsig
    exact ⟨hdeg, hr⟩
  obtain ⟨hdeg, hr⟩ := key i hi
  have hfilter : degreeMap (builtEdges g) i
      = ((builtEdges g).filter (fun e => decide (e.a = i ∨ e.b = i))).length :=
    degreeMap_eq (builtEdges g) (builtEdges_ne g) i
  refine ⟨?_, ?_, ?_, ?_, ?_⟩
  · rw [hdeg, setGraph_edges_eq, hfilter]
  · rw [hr, hdeg, radiusOf]
  · rw [hr]
    exact (radiusOf_bounds _).1
  · rw [hr]
    exact (radiusOf_bounds _).2
  · intro j hj hdegle
    obtain ⟨hdegj, hrj⟩ := key j hj
    rw [hr, hrj]
    apply radiusOf_mono
    rw [hdeg, hdegj] at hdegle
    exact hdegle

/-- C8 (witness): the degree/radius characterization instantiated on node 0
of `docAB` after build. -/
theorem setGraph_degree_radius_witness :
    (sAB.nodes.getD 0 default).degree
        = (sAB.edges.filter (fun e => decide (e.a = 0 ∨ e.b = 0))).length ∧
    (sAB.nodes.getD 0 default).r = radiusOf (sAB.nodes.getD 0 default).degree ∧
    10 ≤ (sAB.nodes.getD 0 default).r ∧
    (sAB.nodes.getD 0 default).r ≤ 24 :=
  ⟨(setGraph_degree_radius (fun q => q) (fun _ => 0) (fun _ => 0) (fun _ => 1/2) 800 600
      docAB 0 (by decide)).1,
   (setGraph_degree_radius (fun q => q) (fun _ => 0) (fun _ => 0) (fun _ => 1/2) 800 600
      docAB 0 (by decide)).2.1,
   (setGraph_degree_radius (fun q => q) (fun _ => 0) (fun _ => 0) (fun _ => 1/2) 800 600
      docAB 0 (by decide)).2.2.1,
   (setGraph_degree_radius (fun q => q) (fun _ => 0) (fun _ => 0) (fun _ => 1/2) 800 600
      docAB 0 (by decide)).2.2.2.1⟩

theorem map_color_of_sigA {l1 l2 : List SimNode} (h : l1.map sigA = l2.map sigA) :
    l1.map (fun n => n.color) = l2.map (fun n => n.color) := by
  have h2 := congrArg (List.map (fun p : String × String × List String × String => p.2.2.2)) h
  rw [List.map_map, List.map_map] at h2
  simpa [Function.comp, sigA] using h2

theorem buildNode_color (clusters : List RawCluster) (raw : RawNode) (n0 : SimNode)
    (h : buildNode clusters raw = some n0) :
    n0.color = colorFormula clusters n0.id n0.tags n0.title := by
  simp only [buildNode] at h
  by_cases hid : strTrim raw.id = ""
  · rw [if_pos hid] at h
    exact absurd h (by simp)
  · rw [if_neg hid] at h
    simp only [Option.some.injEq] at h
    subst h
    rfl

/-- C5: the color assigned to each surviving node is a deterministic function
of the document alone: two builds of the same document with different
randomness streams (and different black-box trigonometry/sqrt functions)
assign the identical color list; and each node's color is resolved from the
first cluster containing it, by cluster order, or — when no cluster owns the
node — from the 31-multiplier rolling hash of its "|"-joined tag list
(falling back to its title when that string is empty). -/
theorem setGraph_color_deterministic (g : GraphDocument) (w h : ℚ)
    (sq1 co1 si1 : ℚ → ℚ) (r1 : ℕ → ℚ) (sq2 co2 si2 : ℚ → ℚ) (r2 : ℕ → ℚ) :
    (setGraph sq1 co1 si1 r1 w h g).nodes.map (fun n => n.color)
        = (setGraph sq2 co2 si2 r2 w h g).nodes.map (fun n => n.color) ∧
    ∀ sn ∈ (setGraph sq1 co1 si1 r1 w h g).nodes,
      sn.color = colorFormula g.clusters sn.id sn.tags sn.title := by
  constructor
  · have h1 := setGraph_map_sigA sq1 co1 si1 r1 w h g
    have h2 := setGraph_map_sigA sq2 co2 si2 r2 w h g
    exact map_color_of_sigA (h1.trans h2.symm)
  · intro sn hsn
    have h1 := setGraph_map_sigA sq1 co1 si1 r1 w h g
    have hmem : sigA sn ∈ (builtNodes g).map sigA := by
      rw [← h1]
      exact List.mem_map_of_mem sigA hsn
    obtain ⟨n0, hn0, hsig⟩ := List.mem_map.mp hmem
    rw [builtNodes] at hn0
    obtain ⟨raw, _, hbuild⟩ := List.mem_filterMap.mp hn0
    have hcol := buildNode_color g.clusters raw n0 hbuild
    have hid : n0.id = sn.id := congrArg (fun p => p.1) hsig
    have hti : n0.title = sn.title := congrArg (fun p => p.2.1) hsig
    have htg : n0.tags = sn.tags := congrArg (fun p => p.2.2.1) hsig
    have hco : n0.color = sn.color := congrArg (fun p => p.2.2.2) hsig
    rw [← hco, hcol, hid, hti, htg]

/-- C5 (witness): two builds of `docAB` with different randomness streams and
different black-box functions produce the identical color list. -/
theorem setGraph_color_deterministic_witness :
    (setGraph (fun q => q) (fun _ => 0) (fun _ => 0) (fun _ => 1/2) 800 600 docAB).nodes.map
        (fun n => n.color)
      = (setGraph (fun _ => 1) (fun _ => 1) (fun _ => 1) (fun _ => 0) 800 600 docAB).nodes.map
        (fun n => n.color) :=
  (setGraph_color_deterministic docAB 800 600 (fun q => q) (fun _ => 0) (fun _ => 0)
    (fun _ => 1/2) (fun _ => 1) (fun _ => 1) (fun _ => 1) (fun _ => 0)).1

theorem getD_map_alpha (f : SimEdge → ℚ) (l : List SimEdge) (i : ℕ) (hi : i < l.length) :
    (l.map f).getD i 0 = f (l.getD i default) := by
  rw [List.getD_eq_getElem (l.map f) 0 (by simpa using hi), List.getD_eq_getElem l default hi]
  exact List.getElem_map f

/-- C6 (counterexample): the claim says exactly the edges touching the
hovered node or its neighbors draw at opacity 0.55.  With node 0 hovered in
a triangle, the edge 1–2 touches two neighbors of node 0, yet `draw` gives
it opacity 0.12: the code's focus test only checks incidence to the hovered
node itself, not to its neighbors. -/
theorem edge_opacity_neighbor_cex :
    ((triState.edges.getD 2 default).a ∈ adjacentTo triState.edges triState.hoverIndex ∨
     (triState.edges.getD 2 default).b ∈ adjacentTo triState.edges triState.hoverIndex) ∧
    (drawEdgeAlphas triState).getD 2 0 = 12/100 ∧
    ¬ ((drawEdgeAlphas triState).getD 2 0 = 55/100) := by
  refine ⟨by decide, ?_, ?_⟩
  · norm_num [drawEdgeAlphas, triState, triEdges, edgeAlpha]
  · norm_num [drawEdgeAlphas, triState, triEdges, edgeAlpha]

/-- C6 (amended): in a draw pass with a hovered node, exactly the edges
incident to the hovered node itself are drawn at opacity 0.55 and all other
edges at 0.12; with no hovered node every edge is drawn at 0.55. -/
theorem edge_opacity_incident_only (s : GraphState) (i : ℕ) (hi : i < s.edges.length) :
    (drawEdgeAlphas s).getD i 0 = edgeAlpha s.hoverIndex (s.edges.getD i default) ∧
    (s.hoverIndex < 0 → edgeAlpha s.hoverIndex (s.edges.getD i default) = 55/100) ∧
    (0 ≤ s.hoverIndex →
      (edgeAlpha s.hoverIndex (s.edges.getD i default) = 55/100 ↔
        (((s.edges.getD i default).a : Int) = s.hoverIndex ∨
         ((s.edges.getD i default).b : Int) = s.hoverIndex)) ∧
      (¬ ((((s.edges.getD i default).a : Int) = s.hoverIndex ∨
           ((s.edges.getD i default).b : Int) = s.hoverIndex)) →
        edgeAlpha s.hoverIndex (s.edges.getD i default) = 12/100)) := by
  refine ⟨getD_map_alpha (edgeAlpha s.hoverIndex) s.edges i hi, ?_, ?_⟩
  · intro hneg
    rw [edgeAlpha, if_pos (Or.inl hneg)]
  · intro hpos
    have hnotneg : ¬ (s.hoverIndex < 0) := by omega
    by_cases hcond : (((s.edges.getD i default).a : Int) = s.hoverIndex ∨
        ((s.edges.getD i default).b : Int) = s.hoverIndex)
    · rw [edgeAlpha, if_pos (Or.inr hcond)]
      exact ⟨⟨fun _ => hcond, fun _ => rfl⟩, fun hc => absurd hcond hc⟩
    · rw [edgeAlpha, if_neg (by tauto)]
      refine ⟨⟨fun h12 => ?_, fun hc => absurd hc hcond⟩, fun _ => rfl⟩
      norm_num at h12

/-- C6 (witness for the amended theorem): with no hover, the first triangle
edge draws at 0.55; with node 0 hovered, the incidence test picks 0.12 for
the neighbor–neighbor edge. -/
theorem edge_opacity_incident_only_witness :
    (drawEdgeAlphas (onMouseLeave triState)).getD 0 0
        = edgeAlpha (onMouseLeave triState).hoverIndex
            ((onMouseLeave triState).edges.getD 0 default) ∧
    edgeAlpha (onMouseLeave triState).hoverIndex
        ((onMouseLeave triState).edges.getD 0 default) = 55/100 :=
  ⟨(edge_opacity_incident_only (onMouseLeave triState) 0 (by decide)).1,
   (edge_opacity_incident_only (onMouseLeave triState) 0 (by decide)).2.1 (by decide)⟩

/-- C7 (code-bug evidence): with a drag of node 0 in progress, the
`mouseleave` handler clears the drag and hover indices but leaves the
dragged node's `fixed` flag set to true, whereas the `mouseup` handler on
the same state does clear the flag; the claim (and the spec's invariant that
`fixed` is true only while actively dragging) is violated by the code. -/
theorem mouseleave_leaves_fixed_true :
    (onMouseLeave pinnedState).dragIndex = -1 ∧
    (onMouseLeave pinnedState).hoverIndex = -1 ∧
    ((onMouseLeave pinnedState).nodes.getD 0 default).fixed = true ∧
    ((onMouseUp pinnedState).nodes.getD 0 default).fixed = false := by
  decide

/-- C9: on a document with zero nodes, `setGraph` produces empty node and
edge collections; every subsequent tick returns the state unchanged,
hit-testing reports no hit (`-1`), and the draw pass issues no edge or node
paint operations — all total functions, so nothing can throw. -/
theorem setGraph_empty_noop (sq co si : ℚ → ℚ) (rand : ℕ → ℚ) (w h : ℚ)
    (g : GraphDocument) (hg : g.nodes = []) :
    (setGraph sq co si rand w h g).nodes = [] ∧
    (setGraph sq co si rand w h g).edges = [] ∧
    (∀ sq2 b, tick sq2 b (setGraph sq co si rand w h g) = setGraph sq co si rand w h g) ∧
    (∀ px py, findNodeAt (setGraph sq co si rand w h g) px py = -1) ∧
    drawEdgeAlphas (setGraph sq co si rand w h g) = [] ∧
    drawNodeAlphas (setGraph sq co si rand w h g) = [] := by
  have hbn : builtNodes g = [] := by
    rw [builtNodes, hg]
    rfl
  have hbe : builtEdges g = [] := by
    rw [builtEdges, hbn]
    exact List.filterMap_eq_nil_iff.mpr (fun re _ => rfl)
  have hnodes : (setGraph sq co si rand w h g).nodes = [] := by
    have hmap := setGraph_map_sigA sq co si rand w h g
    rw [hbn, List.map_nil] at hmap
    exact List.map_eq_nil_iff.mp hmap
  have hedges : (setGraph sq co si rand w h g).edges = [] := by
    rw [setGraph_edges_eq, hbe]
  refine ⟨hnodes, hedges, ?_, ?_, ?_, ?_⟩
  · intro sq2 b
    rw [tick, if_pos (by rw [hnodes]; rfl)]
  · intro px py
    rw [findNodeAt, hnodes]
    rfl
  · rw [drawEdgeAlphas, hedges]
    rfl
  · rw [drawNodeAlphas, hnodes]
    rfl

/-- C9 (witness): instantiated on `docEmpty` (whose raw edge and cluster
lists dangle). -/
theorem setGraph_empty_noop_witness :
    sEmpty.nodes = [] ∧ sEmpty.edges = [] ∧
    tick (fun q => q) true sEmpty = sEmpty ∧
    findNodeAt sEmpty 5 7 = -1 ∧
    drawEdgeAlphas sEmpty = [] :=
  ⟨(setGraph_empty_noop (fun q => q) (fun _ => 0) (fun _ => 0) (fun _ => 1/2) 800 600
      docEmpty rfl).1,
   (setGraph_empty_noop (fun q => q) (fun _ => 0) (fun _ => 0) (fun _ => 1/2) 800 600
      docEmpty rfl).2.1,
   (setGraph_empty_noop (fun q => q) (fun _ => 0) (fun _ => 0) (fun _ => 1/2) 800 600
      docEmpty rfl).2.2.1 (fun q => q) true,
   (setGraph_empty_noop (fun q => q) (fun _ => 0) (fun _ => 0) (fun _ => 1/2) 800 600
      docEmpty rfl).2.2.2.1 5 7,
   (setGraph_empty_noop (fun q => q) (fun _ => 0) (fun _ => 0) (fun _ => 1/2) 800 600
      docEmpty rfl).2.2.2.2.1⟩

theorem builtNodes_length (g : GraphDocument) :
    (builtNodes g).length = g.nodes.countP (fun n => !(strTrim n.id == "")) := by
  rw [builtNodes]
  induction g.nodes with
  | nil => rfl
  | cons n rest ih =>
    rw [List.filterMap_cons, List.countP_cons]
    by_cases hid : strTrim n.id = ""
    · have hnone : buildNode g.clusters n = none := by
        simp [buildNode, hid]
      rw [hnone]
      simp [hid, ih]
    · have hsome : ∃ sn, buildNode g.clusters n = some sn := by
        simp [buildNode, hid]
      obtain ⟨sn, hsn⟩ := hsome
      rw [hsn]
      simp [hid, ih]

/-- C10: two raw nodes with the same nonempty id are both kept as separate
`SimNode`s (the node count equals the count of raw nodes with a nonempty
trimmed id — no deduplication), but the id-to-index map binds an id to its
last occurrence, so no built edge references an earlier duplicate, and every
earlier duplicate finishes the build with degree 0. -/
theorem setGraph_duplicate_last_wins (sq co si : ℚ → ℚ) (rand : ℕ → ℚ) (w h : ℚ)
    (g : GraphDocument) (i j : ℕ) (hij : i < j)
    (hj : j < (setGraph sq co si rand w h g).nodes.length)
    (hid : ((setGraph sq co si rand w h g).nodes.getD i default).id
        = ((setGraph sq co si rand w h g).nodes.getD j default).id) :
    (∀ k, k < (setGraph sq co si rand w h g).edges.length →
      ((setGraph sq co si rand w h g).edges.getD k default).a ≠ i ∧
      ((setGraph sq co si rand w h g).edges.getD k default).b ≠ i) ∧
    ((setGraph sq co si rand w h g).nodes.getD i default).degree = 0 ∧
    (setGraph sq co si rand w h g).nodes.length
        = g.nodes.countP (fun n => !(strTrim n.id == "")) := by
  have hlen := setGraph_nodes_length sq co si rand w h g
  have hi : i < (setGraph sq co si rand w h g).nodes.length := by omega
  have hjB : j < (builtNodes g).length := by omega
  have hiB : i < (builtNodes g).length := by omega
  have hmapA := setGraph_map_sigA sq co si rand w h g
  have hidi := map_eq_imp_getD sigA hmapA i default hi
  have hidj := map_eq_imp_getD sigA hmapA j default hj
  have hidB : ((builtNodes g).getD i default).id = ((builtNodes g).getD j default).id := by
    have h1 : ((setGraph sq co si rand w h g).nodes.getD i default).id
        = ((builtNodes g).getD i default).id := congrArg (fun p => p.1) hidi
    have h2 : ((setGraph sq co si rand w h g).nodes.getD j default).id
        = ((builtNodes g).getD j default).id := congrArg (fun p => p.1) hidj
    rw [← h1, ← h2, hid]
  have noref : ∀ e ∈ builtEdges g, e.a ≠ i ∧ e.b ≠ i := by
    intro e he
    rw [builtEdges] at he
    obtain ⟨re, _, hre⟩ := List.mem_filterMap.mp he
    obtain ⟨a, b, hsa, hsb, _, hea, heb⟩ := buildEdge_some_inv (builtNodes g) re e hre
    constructor
    · intro hcon
      rw [hea] at hcon
      subst hcon
      obtain ⟨_, hsrc, hlast⟩ := nodeIndexOf_some_inv (builtNodes g) re.source a hsa
      exact hlast j hij hjB default (hidB ▸ hsrc default)
    · intro hcon
      rw [heb] at hcon
      subst hcon
      obtain ⟨_, htgt, hlast⟩ := nodeIndexOf_some_inv (builtNodes g) re.target b hsb
      exact hlast j hij hjB default (hidB ▸ htgt default)
  refine ⟨?_, ?_, ?_⟩
  · intro k hk
    rw [setGraph_edges_eq] at hk ⊢
    exact noref ((builtEdges g).getD k default) (getD_mem (builtEdges g) k default hk)
  · have hmapB := setGraph_map_sigB sq co si rand w h g
    have hsig := map_eq_imp_getD sigB hmapB i default hi
    rw [degreedNodes_getD g i default hiB] at hsig
    have hdeg : ((setGraph sq co si rand w h g).nodes.getD i default).degree
        = degreeMap (builtEdges g) i := congrArg (fun p => p.2.1) hsig
    rw [hdeg, degreeMap, degreeFold_apply]
    have hz1 : (builtEdges g).countP (fun e => e.a == i) = 0 :=
      List.countP_eq_zero.mpr
        (fun e he => by simpa using (noref e he).1)
    have hz2 : (builtEdges g).countP (fun e => e.b == i) = 0 :=
      List.countP_eq_zero.mpr
        (fun e he => by simpa using (noref e he).2)
    rw [hz1, hz2]
  · rw [hlen, builtNodes_length]

/-- C10 (witness): in `docDup`, raw nodes 0 and 1 share the id `a`; both are
kept, the built edge attaches to the last duplicate, and node 0 ends with
degree 0. -/
theorem setGraph_duplicate_last_wins_witness :
    ((sDup.edges.getD 0 default).a ≠ 0 ∧ (sDup.edges.getD 0 default).b ≠ 0) ∧
    (sDup.nodes.getD 0 default).degree = 0 ∧
    sDup.nodes.length = docDup.nodes.countP (fun n => !(strTrim n.id == "")) :=
  ⟨(setGraph_duplicate_last_wins (fun q => q) (fun _ => 0) (fun _ => 0) (fun _ => 1/2)
      800 600 docDup 0 1 (by decide) (by decide) (by decide)).1 0 (by decide),
   (setGraph_duplicate_last_wins (fun q => q) (fun _ => 0) (fun _ => 0) (fun _ => 1/2)
      800 600 docDup 0 1 (by decide) (by decide) (by decide)).2.1,
   (setGraph_duplicate_last_wins (fun q => q) (fun _ => 0) (fun _ => 0) (fun _ => 1/2)
      800 600 docDup 0 1 (by decide) (by decide) (by decide)).2.2⟩
